import Mathlib

/-!
Shallow embedding of the proposervm sources (`src/vms/proposervm/inner_state.go`):
the envelope codec (`marshal`/`unmarshal`), the decorated block
(`NewProBlock`, `sign`, `Verify`, `Accept`) and the state store
(`cacheProBlk`, `wipeFromCacheProBlk`, `commitBlk`).

Byte strings are lists of naturals, Go `ids.ID` values (32-byte arrays) are
byte lists, machine integers are `Nat`/`Int` with explicit reductions modulo
powers of two where the code truncates.  Calls into collaborators that are
not part of the embedded code (the database, the inner block, the signer, the
clock, the certificate library) are modelled by environment records holding
the outcome each call would produce, so every function below is a pure,
executable translation of the corresponding Go function.
-/

namespace AvalancheProposerVM

/-- The Go error values the proposervm sources work with.  Each package-level
`errors.New` variable is one constructor; `codecVersionMismatch` stands for
the ad-hoc value `fmt.Errorf("codecVersion not matching")` that `Verify`
returns on a version mismatch (a value distinct from every package-level
error, in particular from `ErrProBlkFailedParsing`); `other tag` stands for
an arbitrary error produced by a collaborator (database, inner block,
signer). -/
inductive GoError where
  | errInnerBlockNotOracle
  | errProBlkNotFound
  | errProBlkBadTimestamp
  | errInvalidTLSKey
  | errInvalidNodeID
  | errInvalidSignature
  | errProBlkWrongHeight
  | errProBlkFailedParsing
  | codecVersionMismatch
  | other (tag : Nat)
  deriving DecidableEq

/-- Go `ids.ID` (a 32-byte array) as a byte list. -/
abbrev ID := List Nat

/-- The zero value of `ids.ID`: 32 zero bytes.  A Go map lookup on a missing
key yields this value. -/
def zeroID : ID := List.replicate 32 0

/-- Go map lookup (`m[k]`, with the `ok` flag expressed by `Option`). -/
def alookup {α : Type} : List (ID × α) → ID → Option α
  | [], _ => none
  | (k, v) :: t, i => if k = i then some v else alookup t i

/-- Go map deletion (`delete(m, k)`). -/
def aerase {α : Type} : List (ID × α) → ID → List (ID × α)
  | [], _ => []
  | (k, v) :: t, i => if k = i then aerase t i else (k, v) :: aerase t i

/-- Go map assignment (`m[k] = v`). -/
def ainsert {α : Type} (l : List (ID × α)) (i : ID) (v : α) : List (ID × α) :=
  (i, v) :: aerase l i

/-- `ProposerBlockHeader` (source lines 169-176).  The certificate is kept as
its raw DER bytes (`valCert.Raw`), which is all the embedded code reads of
it; the empty list is the `x509.Certificate{}` genesis sentinel. -/
structure ProposerBlockHeader where
  version : Nat
  prntID : ID
  timestamp : Int
  pChainHeight : Nat
  valCert : List Nat
  signature : List Nat
  deriving DecidableEq

/-- The data of the wrapped `snowman.Block` that the embedded code reads:
its id (`coreBlk.ID()`) and its serialized form (`coreBlk.Bytes()`).  The
results of its effectful methods (`Verify`, `Accept`) live in the
environment records below. -/
structure CoreBlk where
  cid : ID
  cbytes : List Nat
  deriving DecidableEq

/-- `ProposerBlock` (source lines 188-194).  `bytes = none` models a nil Go
slice, `some l` a non-nil slice holding `l`. -/
structure ProposerBlock where
  header : ProposerBlockHeader
  coreBlk : CoreBlk
  id : ID
  bytes : Option (List Nat)
  deriving DecidableEq

/-- `proBlkVersion` (source line 155). -/
def proBlkVersion : Nat := 0

/-- `BlkSubmissionTolerance` (source line 153), in nanoseconds: 10 seconds. -/
def blkSubmissionToleranceNs : Int := 10 * 1000000000

/-! ### Envelope codec

`marshal`/`unmarshal` (source lines 379-461) drive a `wrappers.Packer`.  The
packer itself is outside `src/`; its primitives are modelled from the spec. -/

/-- Big-endian bytes of `n % 256^w`, `w` bytes wide.  Modelled from the spec:
the `wrappers.Packer` fixed-width big-endian encodings (spec section 4.1). -/
def toBytesBE : Nat → Nat → List Nat
  | 0, _ => []
  | w + 1, n => toBytesBE w (n / 256) ++ [n % 256]

/-- The natural number a big-endian byte list denotes. -/
def beVal (l : List Nat) : Nat := l.foldl (fun a b => a * 256 + b) 0

/-- Modelled from the spec: `Packer.PackShort`, 2 bytes big-endian. -/
def packShort (n : Nat) : List Nat := toBytesBE 2 n

/-- Modelled from the spec: `Packer.PackLong`, 8 bytes big-endian. -/
def packLong (n : Nat) : List Nat := toBytesBE 8 n

/-- Modelled from the spec: `Packer.PackBytes`, a 4-byte big-endian length
prefix followed by the bytes. -/
def packBytes (b : List Nat) : List Nat := toBytesBE 4 b.length ++ b

/-- `uint64(t)` for an `int64` value: two's-complement reinterpretation. -/
def uint64OfInt (t : Int) : Nat := (t % (2 ^ 64 : Int)).toNat

/-- `int64(u)` for a `uint64` value: two's-complement reinterpretation. -/
def intOfUint64 (u : Nat) : Int :=
  if u < 2 ^ 63 then (u : Int) else (u : Int) - 2 ^ 64

/-- Modelled from the spec: the maximum encoded envelope size, 2^18 bytes
(spec sections 4.1 and 6); the packer errors as soon as the encoding would
exceed it, so marshalling succeeds exactly when the whole encoding fits. -/
def maxEnvelopeSize : Nat := 2 ^ 18

/-- `marshallingProposerBLock` (source lines 374-377): the header together
with the wrapped inner bytes. -/
structure MarshallingProposerBLock where
  header : ProposerBlockHeader
  wrpdBytes : List Nat
  deriving DecidableEq

/-- The envelope bytes `marshal` produces when no packer error occurs
(source lines 379-413): version, parent id, timestamp (as uint64),
p-chain height, certificate DER, signature, wrapped bytes, the variable
fields length-prefixed. -/
def marshalBody (m : MarshallingProposerBLock) : List Nat :=
  packShort m.header.version ++ packBytes m.header.prntID ++
    packLong (uint64OfInt m.header.timestamp) ++ packLong m.header.pChainHeight ++
    packBytes m.header.valCert ++ packBytes m.header.signature ++
    packBytes m.wrpdBytes

/-- `marshal` (source lines 379-413): the envelope bytes, or
`ErrProBlkFailedParsing` when the packer errors (the encoding exceeds the
2^18-byte maximum). -/
def marshal (m : MarshallingProposerBLock) : Except GoError (List Nat) :=
  let enc := marshalBody m
  if enc.length ≤ maxEnvelopeSize then .ok enc else .error .errProBlkFailedParsing

/-- Modelled from the spec: a packer read of `n` bytes; fails on truncation. -/
def unpackFixed (n : Nat) (b : List Nat) : Option (List Nat × List Nat) :=
  if n ≤ b.length then some (b.take n, b.drop n) else none

/-- Modelled from the spec: `Packer.UnpackShort`. -/
def unpackShortB (b : List Nat) : Option (Nat × List Nat) :=
  (unpackFixed 2 b).map (fun p => (beVal p.1, p.2))

/-- Modelled from the spec: `Packer.UnpackLong`. -/
def unpackLongB (b : List Nat) : Option (Nat × List Nat) :=
  (unpackFixed 8 b).map (fun p => (beVal p.1, p.2))

/-- Modelled from the spec: `Packer.UnpackBytes`, a 4-byte big-endian length
prefix followed by that many bytes. -/
def unpackBytesB (b : List Nat) : Option (List Nat × List Nat) :=
  match unpackFixed 4 b with
  | none => none
  | some (lb, rest) => unpackFixed (beVal lb) rest

/-- `unmarshal` (source lines 415-461).  `parseOK` models
`x509.ParseCertificate`: whether a non-empty DER byte string parses (the
parsed certificate's raw bytes are the input bytes).  Modelled from the
spec: a zero-length certificate field decodes to nil and is mapped to the
empty-certificate genesis sentinel (source lines 446-450, spec section 4.1). -/
def unmarshal (parseOK : List Nat → Bool) (b : List Nat) :
    Except GoError MarshallingProposerBLock :=
  match unpackShortB b with
  | none => .error .errProBlkFailedParsing
  | some (ver, r1) =>
    match unpackBytesB r1 with
    | none => .error .errProBlkFailedParsing
    | some (pidBytes, r2) =>
      if pidBytes.length ≠ 32 then .error .errProBlkFailedParsing else
      match unpackLongB r2 with
      | none => .error .errProBlkFailedParsing
      | some (tsU, r3) =>
        match unpackLongB r3 with
        | none => .error .errProBlkFailedParsing
        | some (hgt, r4) =>
          match unpackBytesB r4 with
          | none => .error .errProBlkFailedParsing
          | some (certBytes, r5) =>
            if certBytes ≠ [] ∧ ¬ parseOK certBytes then
              .error .errProBlkFailedParsing
            else
              match unpackBytesB r5 with
              | none => .error .errProBlkFailedParsing
              | some (sig, r6) =>
                match unpackBytesB r6 with
                | none => .error .errProBlkFailedParsing
                | some (wrpd, _) =>
                  .ok { header := { version := ver, prntID := pidBytes,
                                    timestamp := intOfUint64 tsU,
                                    pChainHeight := hgt,
                                    valCert := certBytes,
                                    signature := sig },
                        wrpdBytes := wrpd }

/-! ### Decorated block -/

/-- The marshalling value `getBytes` builds (source lines 339-341): the
block's header together with the inner block's serialized form. -/
def envelopeOf (pb : ProposerBlock) : MarshallingProposerBLock :=
  { header := pb.header, wrpdBytes := pb.coreBlk.cbytes }

/-- `getBytes` (source lines 338-348): the marshalled envelope, or the empty
byte string when marshalling errors. -/
def getBytes (pb : ProposerBlock) : List Nat :=
  match marshal (envelopeOf pb) with
  | .ok res => res
  | .error _ => []

/-- `Bytes` (source lines 350-355), without the memoizing write-back: the
stored bytes when non-nil, else the freshly marshalled envelope. -/
def ProposerBlock.Bytes (pb : ProposerBlock) : List Nat :=
  match pb.bytes with
  | some bs => bs
  | none => getBytes pb

/-- The byte string `sign` hashes and signs (source lines 219-220): the
envelope of the header with the signature field cleared. -/
def signMessage (pb : ProposerBlock) : List Nat :=
  getBytes { pb with header := { pb.header with signature := [] } }

/-- The byte string `Verify` checks the signature over (source lines
318-326): the envelope recomputed with the signature field and the cached
bytes cleared. -/
def verifyMessage (pb : ProposerBlock) : List Nat :=
  getBytes { pb with header := { pb.header with signature := [] }, bytes := some [] }

/-- The collaborators `sign` calls: whether `stakingCert.PrivateKey` is a
`crypto.Signer`, and the signature the signer returns for a message hash. -/
structure SignEnv where
  signerOK : Bool
  signFn : List Nat → Except GoError (List Nat)

/-- `sign` (source lines 218-232): clear the signature, hash the envelope,
sign the hash, store the signature in the header. -/
def sign (hash : List Nat → List Nat) (env : SignEnv) (pb : ProposerBlock) :
    Except GoError ProposerBlock :=
  let msgHash := hash (signMessage pb)
  if env.signerOK then
    match env.signFn msgHash with
    | .error e => .error e
    | .ok sig => .ok { pb with header := { pb.header with signature := sig } }
  else .error .errInvalidTLSKey

/-- `NewProBlock` (source lines 196-216).  `hash` models
`hashing.ComputeHash256Array` (SHA-256); `bytesArg = none` is a nil bytes
argument, which makes the constructor marshal the envelope itself. -/
def NewProBlock (hash : List Nat → List Nat) (env : SignEnv)
    (hdr : ProposerBlockHeader) (core : CoreBlk) (bytesArg : Option (List Nat))
    (signBlk : Bool) : Except GoError ProposerBlock :=
  let res0 : ProposerBlock :=
    { header := hdr, coreBlk := core, id := zeroID, bytes := bytesArg }
  match (if signBlk then sign hash env res0 else .ok res0) with
  | .error e => .error e
  | .ok res1 =>
    let finalBytes :=
      match bytesArg with
      | some bs => bs
      | none => ProposerBlock.Bytes res1
    .ok { res1 with bytes := some finalBytes, id := hash finalBytes }

/-- The collaborators `Verify` calls, each modelled by the outcome the call
would produce: the inner block's own `Verify`, the state store's parent
lookup, `vm.pChainHeight()`, the node-id derivation from the certificate
(`ids.ToShortID` of `hashing.PubkeyBytesToAddress` of the raw DER),
`vm.BlkSubmissionDelay` (a `time.Duration`, in nanoseconds), `vm.now()` (in
nanoseconds since the epoch) and the certificate signature check
(`valCert.CheckSignature` over message and signature). -/
structure VerifyEnv where
  coreVerify : Option GoError
  parentLookup : Except GoError ProposerBlock
  pChainH : Nat
  nodeIdOf : List Nat → Option (List Nat)
  delay : Nat → List Nat → Int
  nowNs : Int
  checkSig : List Nat → List Nat → List Nat → Bool

/-- `Verify` (source lines 271-336), returning the error (`none` = success)
together with the block as the method leaves it.  `time.Unix(t, 0)`
comparisons are carried out in nanoseconds, so a timestamp `t` (seconds)
enters them as `t * 10^9`.  Go's copy of the bytes field turns a nil slice
into an empty one; both hold the same byte string, so the restore keeps the
original field. -/
def Verify (env : VerifyEnv) (pb : ProposerBlock) : Option GoError × ProposerBlock :=
  if pb.header.version ≠ proBlkVersion then (some .codecVersionMismatch, pb) else
  match env.coreVerify with
  | some e => (some e, pb)
  | none =>
    match env.parentLookup with
    | .error _ => (some .errProBlkNotFound, pb)
    | .ok prntBlk =>
      if pb.header.pChainHeight < prntBlk.header.pChainHeight then
        (some .errProBlkWrongHeight, pb)
      else if env.pChainH < pb.header.pChainHeight then
        (some .errProBlkWrongHeight, pb)
      else if pb.header.timestamp < prntBlk.header.timestamp then
        (some .errProBlkBadTimestamp, pb)
      else
        match env.nodeIdOf pb.header.valCert with
        | none => (some .errInvalidNodeID, pb)
        | some nodeID =>
          let blkWinDelay := env.delay pb.header.pChainHeight nodeID
          if pb.header.timestamp * 1000000000 <
              prntBlk.header.timestamp * 1000000000 + blkWinDelay then
            (some .errProBlkBadTimestamp, pb)
          else if env.nowNs + blkSubmissionToleranceNs <
              pb.header.timestamp * 1000000000 then
            (some .errProBlkBadTimestamp, pb)
          else
            let blkSignature := pb.header.signature
            let pb1 := { pb with header := { pb.header with signature := [] } }
            let blkBytes := pb.bytes
            let pb2 := { pb1 with bytes := some [] }
            let signedBytes := getBytes pb2
            let pb3 := { pb2 with header := { pb2.header with signature := blkSignature },
                                  bytes := blkBytes }
            if env.checkSig pb3.header.valCert signedBytes pb3.header.signature then
              (none, pb3)
            else (some .errInvalidSignature, pb3)

/-! ### State store -/

/-- `innerState` (source lines 17-27): the two caches (`knownProBlocks` and
`wrpdToProID`, Go maps modelled as association lists with map semantics) and
the two prefixed persistent stores, with the version layer's staged writes
folded into the atomic-commit semantics of `commitBlk`. -/
structure InnerState where
  knownProBlocks : List (ID × ProposerBlock)
  wrpdToProID : List (ID × ID)
  proBlkDB : List (ID × List Nat)
  wrpdToProIDDB : List (ID × ID)
  deriving DecidableEq

/-- `cacheProBlk` (source lines 47-50). -/
def cacheProBlk (st : InnerState) (blk : ProposerBlock) : InnerState :=
  { st with knownProBlocks := ainsert st.knownProBlocks blk.id blk,
            wrpdToProID := ainsert st.wrpdToProID blk.coreBlk.cid blk.id }

/-- `wipeFromCacheProBlk` (source lines 52-57): when the id is cached, drop
the inverse entry of the cached block's inner id and the cache entry itself;
otherwise do nothing. -/
def wipeFromCacheProBlk (st : InnerState) (i : ID) : InnerState :=
  match alookup st.knownProBlocks i with
  | some blk =>
    { st with wrpdToProID := aerase st.wrpdToProID blk.coreBlk.cid,
              knownProBlocks := aerase st.knownProBlocks i }
  | none => st

/-- The outcomes of the database calls `commitBlk` makes, in call order: the
primary-store put, the inverse-store put, `CommitBatch`, and the batch
write. -/
structure CommitEnv where
  proPutErr : Option GoError
  wrpdPutErr : Option GoError
  commitBatchErr : Option GoError
  batchWriteErr : Option GoError

/-- `commitBlk` (source lines 59-80).  The version layer stages both puts and
applies them atomically only when the batch write succeeds (modelled from
the spec: the versioned write layer of spec sections 4.3 and 5; on any
failure the deferred `Abort` discards the staged writes, so the persistent
stores are unchanged).  The value put under the inverse store is read from
the in-memory `wrpdToProID` map (source line 67), defaulting to the zero id
when the key is absent; the caches are wiped on the first three failure
paths, while the batch-write failure path (source line 79) returns the error
without touching the caches. -/
def commitBlk (env : CommitEnv) (st : InnerState) (blk : ProposerBlock) :
    Option GoError × InnerState :=
  match env.proPutErr with
  | some e => (some e, wipeFromCacheProBlk st blk.id)
  | none =>
    match env.wrpdPutErr with
    | some e => (some e, wipeFromCacheProBlk st blk.id)
    | none =>
      match env.commitBatchErr with
      | some e => (some e, wipeFromCacheProBlk st blk.id)
      | none =>
        match env.batchWriteErr with
        | some e => (some e, st)
        | none =>
          let wrpdID := blk.coreBlk.cid
          let value := (alookup st.wrpdToProID wrpdID).getD zeroID
          (none, { st with
                    proBlkDB := ainsert st.proBlkDB blk.id (blk.bytes.getD []),
                    wrpdToProIDDB := ainsert st.wrpdToProIDDB wrpdID value })

/-- `Accept` (source lines 239-246): run the inner block's accept; on
success, wipe the cache entry of the parent; the store state is otherwise
untouched.  `innerAccept` is the outcome of `pb.coreBlk.Accept()`. -/
def acceptBlk (innerAccept : Option GoError) (st : InnerState) (pb : ProposerBlock) :
    Option GoError × InnerState :=
  match innerAccept with
  | some e => (some e, st)
  | none => (none, wipeFromCacheProBlk st pb.header.prntID)

/-! ### Concrete inputs used by witnesses and counterexamples -/

/-- A 32-byte id starting with 1. -/
def idOne : ID := 1 :: List.replicate 31 0

/-- A 32-byte id starting with 2. -/
def idTwo : ID := 2 :: List.replicate 31 0

/-- A small inner block. -/
def coreW : CoreBlk := { cid := 7 :: List.replicate 31 0, cbytes := [] }

/-- A header for a child block: timestamp 1005, reference height 8. -/
def hdrW : ProposerBlockHeader :=
  { version := 0, prntID := idTwo, timestamp := 1005, pChainHeight := 8,
    valCert := [], signature := [] }

/-- A child decorated block. -/
def blkW : ProposerBlock :=
  { header := hdrW, coreBlk := coreW, id := idOne, bytes := some [] }

/-- The parent decorated block: timestamp 1000, reference height 7. -/
def prntW : ProposerBlock :=
  { header := { version := 0, prntID := zeroID, timestamp := 1000,
                pChainHeight := 7, valCert := [], signature := [] },
    coreBlk := { cid := 8 :: List.replicate 31 0, cbytes := [] },
    id := idTwo, bytes := some [] }

/-- A store state in which `blkW` is cached. -/
def stW : InnerState :=
  { knownProBlocks := [(idOne, blkW)],
    wrpdToProID := [(coreW.cid, idOne)],
    proBlkDB := [], wrpdToProIDDB := [] }

/-- The empty store state. -/
def stEmpty : InnerState :=
  { knownProBlocks := [], wrpdToProID := [], proBlkDB := [], wrpdToProIDDB := [] }

/-- A verification environment matching spec scenario 4: submission delay 5
seconds, current time 1010 seconds, reference height 10, signature check
passing. -/
def envVerifyW : VerifyEnv :=
  { coreVerify := none, parentLookup := .ok prntW, pChainH := 10,
    nodeIdOf := fun _ => some [1], delay := fun _ _ => 5000000000,
    nowNs := 1010000000000, checkSig := fun _ _ _ => true }

/-- `blkW` with a non-zero header version. -/
def pbBadVersion : ProposerBlock := { blkW with header := { hdrW with version := 1 } }

/-- A commit environment whose batch write fails. -/
def envCommitBatchWriteFail : CommitEnv :=
  { proPutErr := none, wrpdPutErr := none, commitBatchErr := none,
    batchWriteErr := some (.other 0) }

/-- A commit environment whose inverse-store put fails. -/
def envCommitWrpdPutFail : CommitEnv :=
  { proPutErr := none, wrpdPutErr := some (.other 1), commitBatchErr := none,
    batchWriteErr := none }

/-- A commit environment in which every database call succeeds. -/
def envCommitOK : CommitEnv :=
  { proPutErr := none, wrpdPutErr := none, commitBatchErr := none,
    batchWriteErr := none }

/-- The genesis envelope content: version 0, zero parent id, timestamp 0,
height 0, empty certificate, empty signature, empty inner bytes. -/
def genesisM : MarshallingProposerBLock :=
  { header := { version := 0, prntID := List.replicate 32 0, timestamp := 0,
                pChainHeight := 0, valCert := [], signature := [] },
    wrpdBytes := [] }

/-- The 66-byte genesis envelope encoding. -/
def genesisEnc : List Nat :=
  [0, 0, 0, 0, 0, 32] ++ List.replicate 32 0 ++ List.replicate 16 0 ++
    [0, 0, 0, 0, 0, 0, 0, 0, 0, 0, 0, 0]

/-- A certificate parser that accepts nothing. -/
def parseNone : List Nat → Bool := fun _ => false

/-- An inner block whose serialized form is so large that the envelope
exceeds the 2^18-byte maximum. -/
def hugeCore : CoreBlk := { cid := List.replicate 32 0, cbytes := List.replicate maxEnvelopeSize 0 }

/-- A block wrapping `hugeCore`. -/
def pbHuge : ProposerBlock :=
  { header := hdrW, coreBlk := hugeCore, id := zeroID, bytes := some [] }

/-- A signing environment with a working SHA-256-capable signer. -/
def signEnvW : SignEnv := { signerOK := true, signFn := fun _ => .ok [3] }

/-- A stand-in for SHA-256 at witness inputs. -/
def hashW : List Nat → List Nat := fun _ => List.replicate 32 5

/-! ### Helper lemmas -/

theorem alookup_aerase {α : Type} (l : List (ID × α)) (k : ID) :
    alookup (aerase l k) k = none := by
  induction l with
  | nil => rfl
  | cons p t ih =>
    obtain ⟨k1, v1⟩ := p
    by_cases h : k1 = k
    · simpa [aerase, h] using ih
    · simpa [aerase, alookup, h] using ih

theorem aerase_of_alookup_none {α : Type} (l : List (ID × α)) (k : ID)
    (h : alookup l k = none) : aerase l k = l := by
  induction l with
  | nil => rfl
  | cons p t ih =>
    obtain ⟨k1, v1⟩ := p
    by_cases hk : k1 = k
    · simp [alookup, hk] at h
    · simp only [alookup, if_neg hk] at h
      simp [aerase, hk, ih h]

theorem wipe_knownProBlocks_lookup (st : InnerState) (i : ID) :
    alookup (wipeFromCacheProBlk st i).knownProBlocks i = none := by
  unfold wipeFromCacheProBlk
  cases h : alookup st.knownProBlocks i with
  | none => simpa using h
  | some blk => simpa using alookup_aerase st.knownProBlocks i

theorem wipe_of_cached (st : InnerState) (blk : ProposerBlock)
    (hc : alookup st.knownProBlocks blk.id = some blk) :
    alookup (wipeFromCacheProBlk st blk.id).knownProBlocks blk.id = none ∧
    alookup (wipeFromCacheProBlk st blk.id).wrpdToProID blk.coreBlk.cid = none := by
  unfold wipeFromCacheProBlk
  rw [hc]
  exact ⟨alookup_aerase _ _, alookup_aerase _ _⟩

/-- Once the version check, the inner verification and the parent lookup
have gone through, the error `Verify` returns is determined by the height,
timestamp, node-id and signature checks, in the source's order, and the
signature is checked over `verifyMessage`. -/
theorem verify_first_eq (env : VerifyEnv) (pb prnt : ProposerBlock)
    (h1 : pb.header.version = proBlkVersion)
    (h2 : env.coreVerify = none)
    (h3 : env.parentLookup = .ok prnt) :
    (Verify env pb).1 =
      (if pb.header.pChainHeight < prnt.header.pChainHeight then
        some GoError.errProBlkWrongHeight
      else if env.pChainH < pb.header.pChainHeight then
        some GoError.errProBlkWrongHeight
      else if pb.header.timestamp < prnt.header.timestamp then
        some GoError.errProBlkBadTimestamp
      else
        match env.nodeIdOf pb.header.valCert with
        | none => some GoError.errInvalidNodeID
        | some nodeID =>
          if pb.header.timestamp * 1000000000 <
              prnt.header.timestamp * 1000000000 +
                env.delay pb.header.pChainHeight nodeID then
            some GoError.errProBlkBadTimestamp
          else if env.nowNs + blkSubmissionToleranceNs <
              pb.header.timestamp * 1000000000 then
            some GoError.errProBlkBadTimestamp
          else if env.checkSig pb.header.valCert (verifyMessage pb)
              pb.header.signature then
            none
          else some GoError.errInvalidSignature) := by
  unfold Verify
  rw [if_neg (by simp [h1]), h2, h3]
  simp only []
  by_cases hA : pb.header.pChainHeight < prnt.header.pChainHeight
  · simp [hA]
  by_cases hB : env.pChainH < pb.header.pChainHeight
  · simp [hA, hB]
  by_cases hC : pb.header.timestamp < prnt.header.timestamp
  · simp [hA, hB, hC]
  cases hN : env.nodeIdOf pb.header.valCert with
  | none => simp [hA, hB, hC, hN]
  | some nodeID =>
    by_cases hD : pb.header.timestamp * 1000000000 <
        prnt.header.timestamp * 1000000000 + env.delay pb.header.pChainHeight nodeID
    · simp [hA, hB, hC, hN, hD]
    by_cases hE : env.nowNs + blkSubmissionToleranceNs <
        pb.header.timestamp * 1000000000
    · simp [hA, hB, hC, hN, hD, hE]
    by_cases hF : env.checkSig pb.header.valCert (verifyMessage pb)
        pb.header.signature
    · simp [hA, hB, hC, hN, hD, hE, verifyMessage] at hF ⊢
      simp [hF]
    · simp [hA, hB, hC, hN, hD, hE, verifyMessage] at hF ⊢
      simp [hF]

/-! ### Codec lemmas -/

theorem length_toBytesBE (w n : Nat) : (toBytesBE w n).length = w := by
  induction w generalizing n with
  | zero => rfl
  | succ w ih => simp [toBytesBE, ih]

theorem beVal_append_singleton (l : List Nat) (x : Nat) :
    beVal (l ++ [x]) = beVal l * 256 + x := by
  simp [beVal, List.foldl_append]

theorem beVal_toBytesBE (w n : Nat) : beVal (toBytesBE w n) = n % 256 ^ w := by
  induction w generalizing n with
  | zero => simp [toBytesBE, beVal, Nat.mod_one]
  | succ w ih =>
    rw [toBytesBE, beVal_append_singleton, ih, pow_succ,
      Nat.mul_comm (256 ^ w) 256, Nat.mod_mul]
    ring

theorem unpackFixed_append (n : Nat) (l r : List Nat) (h : l.length = n) :
    unpackFixed n (l ++ r) = some (l, r) := by
  rw [unpackFixed, if_pos (by simp [← h]), List.take_left' h, List.drop_left' h]

theorem unpackShortB_pack (v : Nat) (r : List Nat) :
    unpackShortB (packShort v ++ r) = some (v % 2 ^ 16, r) := by
  rw [unpackShortB, packShort, unpackFixed_append 2 _ _ (length_toBytesBE 2 v)]
  simp [beVal_toBytesBE]

theorem unpackLongB_pack (n : Nat) (r : List Nat) :
    unpackLongB (packLong n ++ r) = some (n % 2 ^ 64, r) := by
  rw [unpackLongB, packLong, unpackFixed_append 8 _ _ (length_toBytesBE 8 n)]
  simp [beVal_toBytesBE]

theorem unpackBytesB_pack (b r : List Nat) (h : b.length < 2 ^ 32) :
    unpackBytesB (packBytes b ++ r) = some (b, r) := by
  rw [packBytes, List.append_assoc, unpackBytesB,
    unpackFixed_append 4 _ _ (length_toBytesBE 4 b.length)]
  have hb : beVal (toBytesBE 4 b.length) = b.length := by
    rw [beVal_toBytesBE]
    exact Nat.mod_eq_of_lt (by norm_num at h ⊢; omega)
  simp only []
  rw [hb, unpackFixed_append b.length _ _ rfl]

theorem uint64OfInt_lt (t : Int) : uint64OfInt t < 2 ^ 64 := by
  unfold uint64OfInt
  omega

theorem intOfUint64_uint64OfInt (t : Int) (h1 : -(2 ^ 63) ≤ t) (h2 : t < 2 ^ 63) :
    intOfUint64 (uint64OfInt t) = t := by
  unfold intOfUint64 uint64OfInt
  split <;> omega

theorem marshalBody_length (m : MarshallingProposerBLock) :
    (marshalBody m).length =
      34 + m.header.prntID.length + m.header.valCert.length +
        m.header.signature.length + m.wrpdBytes.length := by
  simp [marshalBody, packShort, packLong, packBytes, length_toBytesBE]
  ring

theorem marshal_error_of_length (m : MarshallingProposerBLock)
    (h : maxEnvelopeSize < (marshalBody m).length) :
    marshal m = .error .errProBlkFailedParsing := by
  rw [marshal]
  rw [if_neg (by omega)]

theorem marshal_ok_elim (m : MarshallingProposerBLock) (enc : List Nat)
    (h : marshal m = .ok enc) :
    enc = marshalBody m ∧ (marshalBody m).length ≤ maxEnvelopeSize := by
  rw [marshal] at h
  by_cases hl : (marshalBody m).length ≤ maxEnvelopeSize
  · rw [if_pos hl] at h
    cases h
    exact ⟨rfl, hl⟩
  · rw [if_neg hl] at h
    cases h

/-! ### Claim C1 -/

/-- C1, counterexample: with `blkW` cached, a run of `commitBlk` in which the
primary put, the inverse put and the batch creation succeed and the batch
write fails returns the batch-write error, yet both caches still contain
`blkW` — so it is not the case that after every failing `commit(b)` neither
cache contains an entry for `b`. -/
theorem c1_counterexample :
    (commitBlk envCommitBatchWriteFail stW blkW).1 = some (GoError.other 0) ∧
    alookup (commitBlk envCommitBatchWriteFail stW blkW).2.knownProBlocks blkW.id =
      some blkW ∧
    alookup (commitBlk envCommitBatchWriteFail stW blkW).2.wrpdToProID blkW.coreBlk.cid =
      some blkW.id := by
  refine ⟨?_, ?_, ?_⟩ <;> decide

/-- C1, amended: for a block `b` held by the primary cache, a `commit(b)` run
failing at the primary-store put, the inverse-store put or the batch
creation returns that first error and leaves neither cache with an entry for
`b`; a run failing only at the batch write returns that error with both
caches untouched. -/
theorem c1_commit_cache_eviction (env : CommitEnv) (st : InnerState)
    (blk : ProposerBlock) (hc : alookup st.knownProBlocks blk.id = some blk) :
    (∀ e : GoError,
      env.proPutErr = some e ∨
        env.proPutErr = none ∧ env.wrpdPutErr = some e ∨
        env.proPutErr = none ∧ env.wrpdPutErr = none ∧ env.commitBatchErr = some e →
      (commitBlk env st blk).1 = some e ∧
      alookup (commitBlk env st blk).2.knownProBlocks blk.id = none ∧
      alookup (commitBlk env st blk).2.wrpdToProID blk.coreBlk.cid = none) ∧
    (env.proPutErr = none → env.wrpdPutErr = none → env.commitBatchErr = none →
      ∀ e : GoError, env.batchWriteErr = some e →
      commitBlk env st blk = (some e, st)) := by
  constructor
  · intro e he
    obtain ⟨h1, h2⟩ := wipe_of_cached st blk hc
    have hcommit : commitBlk env st blk = (some e, wipeFromCacheProBlk st blk.id) := by
      rcases he with h | ⟨ha, h⟩ | ⟨ha, hb, h⟩
      · simp [commitBlk, h]
      · simp [commitBlk, ha, h]
      · simp [commitBlk, ha, hb, h]
    rw [hcommit]
    exact ⟨rfl, h1, h2⟩
  · intro ha hb hcb e he
    simp [commitBlk, ha, hb, hcb, he]

/-- C1, witness: the amended statement at a concrete cached block and a run
whose inverse-store put fails. -/
theorem c1_witness :
    (commitBlk envCommitWrpdPutFail stW blkW).1 = some (GoError.other 1) ∧
    alookup (commitBlk envCommitWrpdPutFail stW blkW).2.knownProBlocks blkW.id = none ∧
    alookup (commitBlk envCommitWrpdPutFail stW blkW).2.wrpdToProID blkW.coreBlk.cid =
      none :=
  (c1_commit_cache_eviction envCommitWrpdPutFail stW blkW (by decide)).1
    (GoError.other 1) (Or.inr (Or.inl ⟨rfl, rfl⟩))

/-! ### Claim C2 -/

/-- C2: evaluating `commitBlk` on a block that was never inserted into the
caches, with every database call succeeding, shows the inverse persistent
store receives the zero id — the default read from the in-memory inverse
map — and not the decorated block's id, contradicting the claim that a
successful `commit(b)` always persists `b.id` under the inverse store. -/
theorem c2_commit_inverse_writes_zero_id :
    (commitBlk envCommitOK stEmpty blkW).1 = none ∧
    alookup (commitBlk envCommitOK stEmpty blkW).2.wrpdToProIDDB blkW.coreBlk.cid =
      some zeroID ∧
    zeroID ≠ blkW.id := by
  refine ⟨?_, ?_, ?_⟩ <;> decide

/-! ### Claim C3 -/

/-- C3, counterexample: a block whose header version is 1 makes `Verify`
fail with the ad-hoc version-mismatch error, not with
`ErrProBlkFailedParsing` — so the claim that it fails with the FailedParsing
error value is false. -/
theorem c3_counterexample :
    (Verify envVerifyW pbBadVersion).1 = some GoError.codecVersionMismatch ∧
    (Verify envVerifyW pbBadVersion).1 ≠ some GoError.errProBlkFailedParsing := by
  refine ⟨?_, ?_⟩ <;> decide

/-- C3, amended: for every decorated block whose header version is not 0,
`Verify` fails before performing any other check — the outcome is the same
for every environment, so no inner verification, parent lookup, height,
timestamp or signature check is consulted — but the error returned is the
ad-hoc version-mismatch error (`fmt.Errorf`), not `ErrProBlkFailedParsing`. -/
theorem c3_version_mismatch_first (env : VerifyEnv) (pb : ProposerBlock)
    (h : pb.header.version ≠ proBlkVersion) :
    (Verify env pb).1 = some GoError.codecVersionMismatch ∧
    (Verify env pb).1 ≠ some GoError.errProBlkFailedParsing := by
  unfold Verify
  rw [if_pos h]
  exact ⟨rfl, by simp⟩

/-- C3, witness: the amended statement at the concrete version-1 block. -/
theorem c3_witness :
    (Verify envVerifyW pbBadVersion).1 = some GoError.codecVersionMismatch ∧
    (Verify envVerifyW pbBadVersion).1 ≠ some GoError.errProBlkFailedParsing :=
  c3_version_mismatch_first envVerifyW pbBadVersion (by decide)

/-! ### Claim C4 -/

/-- C4: the byte string `Verify`'s signature check runs over equals the byte
string `sign` hashes and signs — both are the envelope produced with the
signature field set to empty — neither depends on the signature stored in
the header, and for a block passing every earlier check `Verify` succeeds
exactly when the certificate check accepts the stored signature over that
signature-free message. -/
theorem c4_sign_verify_byte_exact (env : VerifyEnv) (pb prnt : ProposerBlock)
    (nid : List Nat)
    (h1 : pb.header.version = proBlkVersion)
    (h2 : env.coreVerify = none)
    (h3 : env.parentLookup = .ok prnt)
    (h4 : prnt.header.pChainHeight ≤ pb.header.pChainHeight)
    (h5 : pb.header.pChainHeight ≤ env.pChainH)
    (h6 : prnt.header.timestamp ≤ pb.header.timestamp)
    (h7 : env.nodeIdOf pb.header.valCert = some nid)
    (h8 : prnt.header.timestamp * 1000000000 + env.delay pb.header.pChainHeight nid ≤
      pb.header.timestamp * 1000000000)
    (h9 : pb.header.timestamp * 1000000000 ≤ env.nowNs + blkSubmissionToleranceNs) :
    verifyMessage pb = signMessage pb ∧
    (∀ s : List Nat,
      signMessage { pb with header := { pb.header with signature := s } } =
        signMessage pb) ∧
    ((Verify env pb).1 = none ↔
      env.checkSig pb.header.valCert (signMessage pb) pb.header.signature = true) := by
  have hmsg : verifyMessage pb = signMessage pb := rfl
  refine ⟨hmsg, fun s => rfl, ?_⟩
  rw [verify_first_eq env pb prnt h1 h2 h3, if_neg (by omega), if_neg (by omega),
    if_neg (by omega), h7]
  simp only []
  rw [if_neg (by omega), if_neg (by omega), hmsg]
  by_cases hF : env.checkSig pb.header.valCert (signMessage pb) pb.header.signature
  · simp [hF]
  · simp [hF]

/-- C4, witness: the byte-exactness statement at the concrete child block
and environment of spec scenario 4. -/
theorem c4_witness :
    verifyMessage blkW = signMessage blkW ∧
    (∀ s : List Nat,
      signMessage { blkW with header := { blkW.header with signature := s } } =
        signMessage blkW) ∧
    ((Verify envVerifyW blkW).1 = none ↔
      envVerifyW.checkSig blkW.header.valCert (signMessage blkW)
        blkW.header.signature = true) :=
  c4_sign_verify_byte_exact envVerifyW blkW prntW [1] (by decide) rfl rfl
    (by decide) (by decide) (by decide) rfl (by decide) (by decide)

/-! ### Claim C5 -/

/-- C5: for a block passing the version, inner-verification, parent, height,
timestamp-monotonicity and node-id checks, `Verify` fails with
`ErrProBlkBadTimestamp` exactly when the timestamp is before the parent's,
before the parent's plus the submission delay, or after `now()` plus the
10-second tolerance (`time.Unix` comparisons carried out in nanoseconds); a
timestamp equal to any bound is admitted. -/
theorem c5_timestamp_window (env : VerifyEnv) (pb prnt : ProposerBlock)
    (nid : List Nat)
    (h1 : pb.header.version = proBlkVersion)
    (h2 : env.coreVerify = none)
    (h3 : env.parentLookup = .ok prnt)
    (h4 : prnt.header.pChainHeight ≤ pb.header.pChainHeight)
    (h5 : pb.header.pChainHeight ≤ env.pChainH)
    (h6 : prnt.header.timestamp ≤ pb.header.timestamp)
    (h7 : env.nodeIdOf pb.header.valCert = some nid) :
    ((Verify env pb).1 = some GoError.errProBlkBadTimestamp ↔
      (pb.header.timestamp < prnt.header.timestamp ∨
        pb.header.timestamp * 1000000000 <
          prnt.header.timestamp * 1000000000 +
            env.delay pb.header.pChainHeight nid ∨
        env.nowNs + blkSubmissionToleranceNs <
          pb.header.timestamp * 1000000000)) := by
  rw [verify_first_eq env pb prnt h1 h2 h3, if_neg (by omega), if_neg (by omega),
    if_neg (by omega), h7]
  simp only []
  by_cases hD : pb.header.timestamp * 1000000000 <
      prnt.header.timestamp * 1000000000 + env.delay pb.header.pChainHeight nid
  · simp [hD]
  by_cases hE : env.nowNs + blkSubmissionToleranceNs <
      pb.header.timestamp * 1000000000
  · simp [hD, hE]
  · have hts : ¬ pb.header.timestamp < prnt.header.timestamp := by omega
    rw [if_neg hD, if_neg hE]
    by_cases hF : env.checkSig pb.header.valCert (verifyMessage pb)
        pb.header.signature
    · simp [hF, hts, hD, hE]
    · simp [hF, hts, hD, hE]

/-- C5, witness: spec scenario 4 — parent timestamp 1000, submission delay
5 seconds, child timestamp 1005, current time 1010 — admits the block's
timestamp. -/
theorem c5_witness :
    ((Verify envVerifyW blkW).1 = some GoError.errProBlkBadTimestamp ↔
      (blkW.header.timestamp < prntW.header.timestamp ∨
        blkW.header.timestamp * 1000000000 <
          prntW.header.timestamp * 1000000000 +
            envVerifyW.delay blkW.header.pChainHeight [1] ∨
        envVerifyW.nowNs + blkSubmissionToleranceNs <
          blkW.header.timestamp * 1000000000)) :=
  c5_timestamp_window envVerifyW blkW prntW [1] (by decide) rfl rfl
    (by decide) (by decide) (by decide) rfl

/-! ### Claim C7 -/

/-- C7: for a block passing the version, inner-verification and parent
checks, `Verify` fails with `ErrProBlkWrongHeight` exactly when the
reference height is strictly below the parent's or strictly above the VM's
current reference height; equality at either bound is admitted. -/
theorem c7_ref_height_window (env : VerifyEnv) (pb prnt : ProposerBlock)
    (h1 : pb.header.version = proBlkVersion)
    (h2 : env.coreVerify = none)
    (h3 : env.parentLookup = .ok prnt) :
    ((Verify env pb).1 = some GoError.errProBlkWrongHeight ↔
      (pb.header.pChainHeight < prnt.header.pChainHeight ∨
        env.pChainH < pb.header.pChainHeight)) := by
  rw [verify_first_eq env pb prnt h1 h2 h3]
  by_cases hA : pb.header.pChainHeight < prnt.header.pChainHeight
  · simp [hA]
  by_cases hB : env.pChainH < pb.header.pChainHeight
  · simp [hA, hB]
  rw [if_neg hA, if_neg hB]
  constructor
  · intro h
    by_cases hC : pb.header.timestamp < prnt.header.timestamp
    · rw [if_pos hC] at h
      exact absurd h (by simp)
    rw [if_neg hC] at h
    cases hN : env.nodeIdOf pb.header.valCert with
    | none => rw [hN] at h; exact absurd h (by simp)
    | some nodeID =>
      rw [hN] at h
      simp only [] at h
      repeat' split at h
      all_goals simp_all
  · intro h
    exact absurd h (by omega)

/-- C7, witness: parent reference height 7, child 8, current reference
height 10 — the height checks admit the block. -/
theorem c7_witness :
    ((Verify envVerifyW blkW).1 = some GoError.errProBlkWrongHeight ↔
      (blkW.header.pChainHeight < prntW.header.pChainHeight ∨
        envVerifyW.pChainH < blkW.header.pChainHeight)) :=
  c7_ref_height_window envVerifyW blkW prntW (by decide) rfl rfl

/-! ### Claim C6 -/

/-- C6: for every well-formed header and inner-bytes pair — parent id 32
bytes long, version a `uint16` value, timestamp an `int64` value, height a
`uint64` value, certificate empty (genesis) or parseable, and the whole
envelope marshallable — unmarshalling the marshalled encoding succeeds,
returns the pair unchanged, and marshalling that result reproduces the
original encoding. -/
theorem c6_marshal_unmarshal_roundtrip (parseOK : List Nat → Bool)
    (m : MarshallingProposerBLock) (enc : List Nat)
    (h32 : m.header.prntID.length = 32)
    (hv : m.header.version < 2 ^ 16)
    (hts1 : -(2 ^ 63) ≤ m.header.timestamp)
    (hts2 : m.header.timestamp < 2 ^ 63)
    (hh : m.header.pChainHeight < 2 ^ 64)
    (hcert : m.header.valCert = [] ∨ parseOK m.header.valCert = true)
    (henc : marshal m = .ok enc) :
    unmarshal parseOK enc = .ok m ∧ marshal m = .ok enc := by
  obtain ⟨hbody, hlen⟩ := marshal_ok_elim m enc henc
  refine ⟨?_, henc⟩
  subst hbody
  have hsum : 34 + m.header.prntID.length + m.header.valCert.length +
      m.header.signature.length + m.wrpdBytes.length ≤ 2 ^ 18 := by
    rw [← marshalBody_length]
    exact hlen
  obtain ⟨⟨ver, pid, ts, hgt, cert, sig⟩, wrpd⟩ := m
  simp only [] at h32 hv hts1 hts2 hh hcert hsum
  have hM : marshalBody ⟨⟨ver, pid, ts, hgt, cert, sig⟩, wrpd⟩ =
      packShort ver ++ (packBytes pid ++ (packLong (uint64OfInt ts) ++
        (packLong hgt ++ (packBytes cert ++ (packBytes sig ++ packBytes wrpd))))) := by
    simp [marshalBody, List.append_assoc]
  rw [hM]
  unfold unmarshal
  rw [unpackShortB_pack]
  simp only []
  rw [unpackBytesB_pack pid _ (by omega)]
  simp only []
  rw [if_neg (by simp [h32])]
  rw [unpackLongB_pack]
  simp only []
  rw [Nat.mod_eq_of_lt (uint64OfInt_lt ts)]
  rw [unpackLongB_pack]
  simp only []
  rw [Nat.mod_eq_of_lt hh]
  rw [unpackBytesB_pack cert _ (by omega)]
  simp only []
  rw [if_neg (by rcases hcert with h | h <;> simp [h])]
  rw [unpackBytesB_pack sig _ (by omega)]
  simp only []
  rw [← List.append_nil (packBytes wrpd)]
  rw [unpackBytesB_pack wrpd [] (by omega)]
  simp only []
  rw [Nat.mod_eq_of_lt hv, intOfUint64_uint64OfInt ts hts1 hts2]

/-- C6, witness: the genesis envelope of spec scenario 1 — version 0, zero
parent id, timestamp 0, height 0, empty certificate, empty signature, empty
inner bytes — round-trips through the codec. -/
theorem c6_witness :
    unmarshal parseNone genesisEnc = .ok genesisM ∧
    marshal genesisM = .ok genesisEnc :=
  c6_marshal_unmarshal_roundtrip parseNone genesisM genesisEnc (by decide)
    (by decide) (by decide) (by decide) (by decide) (Or.inl rfl) (by rfl)

/-! ### Claim C10 -/

/-- C10: when marshalling the envelope fails (here: because the encoding
exceeds the 2^18-byte maximum), `getBytes` and `Bytes` return the empty
byte string instead of reporting an error; consequently construction with
nil bytes assigns the hash of the empty string as the block id, and `sign`
hashes and signs the empty string rather than failing. -/
theorem c10_marshal_failure_empty_bytes (hash : List Nat → List Nat)
    (env : SignEnv) (pb : ProposerBlock) (er er2 : GoError)
    (hm : marshal (envelopeOf pb) = .error er)
    (hm2 : marshal (envelopeOf { pb with header := { pb.header with signature := [] } }) = .error er2) :
    getBytes pb = [] ∧
    ProposerBlock.Bytes { pb with bytes := none } = [] ∧
    NewProBlock hash env pb.header pb.coreBlk none false =
      .ok { header := pb.header, coreBlk := pb.coreBlk, id := hash [],
            bytes := some [] } ∧
    signMessage pb = [] ∧
    (env.signerOK = true → ∀ s : List Nat, env.signFn (hash []) = .ok s →
      sign hash env pb = .ok { pb with header := { pb.header with signature := s } }) := by
  simp only [envelopeOf] at hm hm2
  have hg : getBytes pb = [] := by
    simp only [getBytes, envelopeOf, hm]
  have hsm : signMessage pb = [] := by
    simp only [signMessage, getBytes, envelopeOf, hm2]
  refine ⟨hg, ?_, ?_, hsm, ?_⟩
  · simp only [ProposerBlock.Bytes, getBytes, envelopeOf, hm]
  · simp [NewProBlock, ProposerBlock.Bytes, getBytes, envelopeOf, hm]
  · intro hok s hs
    simp only [sign, hsm, hok, if_true, hs]

/-- Marshalling `pbHuge`'s envelope fails on the size limit. -/
theorem marshal_pbHuge_err :
    marshal (envelopeOf pbHuge) = .error .errProBlkFailedParsing := by
  apply marshal_error_of_length
  rw [marshalBody_length]
  have h1 : (envelopeOf pbHuge).header.prntID.length = 32 := by
    simp [envelopeOf, pbHuge, hdrW, idTwo]
  have h2 : (envelopeOf pbHuge).header.valCert.length = 0 := by
    simp [envelopeOf, pbHuge, hdrW]
  have h3 : (envelopeOf pbHuge).header.signature.length = 0 := by
    simp [envelopeOf, pbHuge, hdrW]
  have h4 : (envelopeOf pbHuge).wrpdBytes.length = maxEnvelopeSize := by
    simp only [envelopeOf, pbHuge, hugeCore, List.length_replicate]
  rw [h1, h2, h3, h4]
  simp only [maxEnvelopeSize]
  norm_num

/-- Marshalling `pbHuge`'s envelope with the signature cleared also fails on
the size limit. -/
theorem marshal_pbHuge_err2 :
    marshal (envelopeOf { pbHuge with header := { pbHuge.header with signature := [] } }) =
      .error .errProBlkFailedParsing := by
  apply marshal_error_of_length
  rw [marshalBody_length]
  have h1 : (envelopeOf { pbHuge with header := { pbHuge.header with signature := [] } }).header.prntID.length = 32 := by
    simp [envelopeOf, pbHuge, hdrW, idTwo]
  have h2 : (envelopeOf { pbHuge with header := { pbHuge.header with signature := [] } }).header.valCert.length = 0 := by
    simp [envelopeOf, pbHuge, hdrW]
  have h3 : (envelopeOf { pbHuge with header := { pbHuge.header with signature := [] } }).header.signature.length = 0 := by
    simp [envelopeOf, pbHuge, hdrW]
  have h4 : (envelopeOf { pbHuge with header := { pbHuge.header with signature := [] } }).wrpdBytes.length = maxEnvelopeSize := by
    simp only [envelopeOf, pbHuge, hugeCore, List.length_replicate]
  rw [h1, h2, h3, h4]
  simp only [maxEnvelopeSize]
  norm_num

/-- C10, witness: an inner block serializing to 2^18 zero bytes makes the
envelope exceed the maximum; construction and signing then operate on the
empty byte string. -/
theorem c10_witness :
    getBytes pbHuge = [] ∧
    ProposerBlock.Bytes { pbHuge with bytes := none } = [] ∧
    NewProBlock hashW signEnvW pbHuge.header pbHuge.coreBlk none false =
      .ok { header := pbHuge.header, coreBlk := pbHuge.coreBlk, id := hashW [],
            bytes := some [] } ∧
    signMessage pbHuge = [] ∧
    (signEnvW.signerOK = true → ∀ s : List Nat, signEnvW.signFn (hashW []) = .ok s →
      sign hashW signEnvW pbHuge =
        .ok { pbHuge with header := { pbHuge.header with signature := s } }) :=
  c10_marshal_failure_empty_bytes hashW signEnvW pbHuge .errProBlkFailedParsing
    .errProBlkFailedParsing marshal_pbHuge_err marshal_pbHuge_err2

/-! ### Claim C8 -/

/-- C8: `Accept` propagates the inner block's accept error unchanged with
the whole store state untouched; on inner success it removes the primary
cache entry keyed by the parent id and, when that parent is cached, the
inverse entry keyed by the cached parent's inner id, leaving the persistent
stores untouched. -/
theorem c8_accept_eviction (innerAccept : Option GoError) (st : InnerState)
    (pb : ProposerBlock) :
    (∀ e : GoError, innerAccept = some e → acceptBlk innerAccept st pb = (some e, st)) ∧
    (innerAccept = none →
      (acceptBlk innerAccept st pb).1 = none ∧
      (acceptBlk innerAccept st pb).2.knownProBlocks =
        aerase st.knownProBlocks pb.header.prntID ∧
      (acceptBlk innerAccept st pb).2.wrpdToProID =
        (match alookup st.knownProBlocks pb.header.prntID with
         | some prnt => aerase st.wrpdToProID prnt.coreBlk.cid
         | none => st.wrpdToProID) ∧
      (acceptBlk innerAccept st pb).2.proBlkDB = st.proBlkDB ∧
      (acceptBlk innerAccept st pb).2.wrpdToProIDDB = st.wrpdToProIDDB) := by
  constructor
  · intro e he
    simp [acceptBlk, he]
  · intro hn
    subst hn
    unfold acceptBlk wipeFromCacheProBlk
    cases h : alookup st.knownProBlocks pb.header.prntID with
    | none => simp [aerase_of_alookup_none _ _ h]
    | some prnt => simp

/-! ### Claim C9 -/

/-- C9: for every environment and block, whatever the outcome of `Verify`,
the block's signature field and bytes field after the call hold exactly the
byte strings they held before it, even though the method temporarily clears
both to recompute the signed message. -/
theorem c9_verify_restores_signature_and_bytes (env : VerifyEnv) (pb : ProposerBlock) :
    (Verify env pb).2.header.signature = pb.header.signature ∧
    (Verify env pb).2.bytes = pb.bytes := by
  refine ⟨?_, ?_⟩ <;> (unfold Verify; simp only []; repeat' split) <;> rfl

end AvalancheProposerVM
